import Mathlib

/-!
Verification of `extract_fields_to_csv.py` (pdf-xtract): a shallow embedding of
the Field Mapper (`build_csv_row_from_fields`), the CSV append sink
(`append_csv_row_to_s3`) and the event handler (`lambda_handler`), together
with theorems settling the specification claims.

Form field values are modelled as `Option String` (`none` = the `/V` entry is
absent).  A `FormFieldSet` is the ordered association list corresponding to the
Python dict returned by `PyPDF2.PdfReader.get_fields()`.
-/

/-- Python `str.strip()` whitespace characters (ASCII part). -/
def isPySpace (c : Char) : Bool :=
  c == ' ' || c == '\t' || c == '\n' || c == '\r' || c == '\x0b' || c == '\x0c'

/-- ASCII lower-casing of a character, as Python `str.lower()` does on ASCII. -/
def lowerChar (c : Char) : Char :=
  if 'A' ≤ c ∧ c ≤ 'Z' then Char.ofNat (c.toNat + 32) else c

/-- Python `s.lower()`. -/
def pyLower (s : String) : String := ⟨s.data.map lowerChar⟩

/-- Drop leading Python whitespace from a character list. -/
def lstripL (l : List Char) : List Char := l.dropWhile isPySpace

/-- Drop trailing characters satisfying `p` from a character list. -/
def rstripWith (p : Char → Bool) (l : List Char) : List Char :=
  (l.reverse.dropWhile p).reverse

/-- Characters of Python `s.strip()`. -/
def stripL (l : List Char) : List Char := rstripWith isPySpace (lstripL l)

/-- Python `s.strip()`. -/
def pyStrip (s : String) : String := ⟨stripL s.data⟩

/-- Python `s.rstrip("\n")`. -/
def rstripNl (s : String) : String := ⟨rstripWith (fun c => c == '\n') s.data⟩

/-- `leadsWith n h` holds when `n` is an initial segment of `h`. -/
def leadsWith : List Char → List Char → Bool
  | [], _ => true
  | _ :: _, [] => false
  | a :: as, b :: bs => a == b && leadsWith as bs

/-- Does `needle` occur inside the list (at any position)? -/
def subHelper (needle : List Char) : List Char → Bool
  | [] => needle.isEmpty
  | c :: cs => leadsWith needle (c :: cs) || subHelper needle cs

/-- Python `needle in hay` for strings. -/
def pyIn (needle hay : String) : Bool := subHelper needle.data hay.data

/-- Python truthiness of a string (`if s:`). -/
def strEmpty (s : String) : Bool := s.data.isEmpty

/-- Python truthiness of `field_info.get("/V")`: `None` and `""` are falsy. -/
def truthy : Option String → Bool
  | none => false
  | some s => !(strEmpty s)

/-- Join a list of strings with a separator (as `sep.join(parts)` in Python). -/
def sepJoin (sep : String) : List String → String
  | [] => ""
  | [x] => x
  | x :: y :: xs => x ++ sep ++ sepJoin sep (y :: xs)

/-- The 13-column output record, all columns defaulting to `""`. -/
structure Record where
  landlord1First : String := ""
  landlord1Last : String := ""
  landlord2First : String := ""
  landlord2Last : String := ""
  tenant1First : String := ""
  tenant1Last : String := ""
  tenant2First : String := ""
  tenant2Last : String := ""
  phoneNumber : String := ""
  address : String := ""
  leaseStartDate : String := ""
  leaseExpiryDate : String := ""
  monthlyRent : String := ""
deriving DecidableEq

/-- `output_data = {key: "" for key in headers}`. -/
def emptyRecord : Record := {}

/-- The fixed CSV header labels, in order (`headers` in the source). -/
def csvHeaders : List String :=
  ["Landlord 1 First Name", "Landlord 1 Last Name",
   "Landlord 2 First Name", "Landlord 2 Last Name",
   "Tenant 1 First Name", "Tenant 1 Last Name",
   "Tenant 2 First Name", "Tenant 2 Last Name",
   "Phone Number", "Address", "Lease Start Date", "Lease Expiry Date",
   "Monthly Rent"]

/-- The record's column values in header order. -/
def recordValues (r : Record) : List String :=
  [r.landlord1First, r.landlord1Last, r.landlord2First, r.landlord2Last,
   r.tenant1First, r.tenant1Last, r.tenant2First, r.tenant2Last,
   r.phoneNumber, r.address, r.leaseStartDate, r.leaseExpiryDate,
   r.monthlyRent]

/-- The static `mapping` dict of the source, in insertion (= iteration) order. -/
def mappingList : List (String × String) :=
  [("last name", "Landlord 1 Last Name"),
   ("first and middle names", "Landlord 1 First Name"),
   ("last name_2", "Landlord 2 Last Name"),
   ("first and middle names_2", "Landlord 2 First Name"),
   ("last name_3", "Tenant 1 Last Name"),
   ("first and middle names_3", "Tenant 1 First Name"),
   ("last name_4", "Tenant 2 Last Name"),
   ("first and middle names_4", "Tenant 2 First Name"),
   ("undefined_2", "Phone Number")]

/-- `output_data[csv_key] = value` for a column named by its header label. -/
def setCol (r : Record) (k v : String) : Record :=
  match k with
  | "Landlord 1 First Name" => { r with landlord1First := v }
  | "Landlord 1 Last Name" => { r with landlord1Last := v }
  | "Landlord 2 First Name" => { r with landlord2First := v }
  | "Landlord 2 Last Name" => { r with landlord2Last := v }
  | "Tenant 1 First Name" => { r with tenant1First := v }
  | "Tenant 1 Last Name" => { r with tenant1Last := v }
  | "Tenant 2 First Name" => { r with tenant2First := v }
  | "Tenant 2 Last Name" => { r with tenant2Last := v }
  | "Phone Number" => { r with phoneNumber := v }
  | "Address" => { r with address := v }
  | "Lease Start Date" => { r with leaseStartDate := v }
  | "Lease Expiry Date" => { r with leaseExpiryDate := v }
  | "Monthly Rent" => { r with monthlyRent := v }
  | _ => r

/-- Inner loop over `mapping.items()`: the first `pdf_key` contained in the
lowercased, stripped field name wins (then `break`). -/
def firstMapHit (keyLower : String) : List (String × String) → Option String
  | [] => none
  | (pk, ck) :: rest =>
    if pyIn pk keyLower then some ck else firstMapHit keyLower rest

/-- A form field set: ordered list of (field name, optional `/V` value). -/
abbrev FormFieldSet := List (String × Option String)

/-- Address identifier substrings, in the fixed order of the source. -/
def addrIdents : List String :=
  ["unit #", "street number and street name1", "City1", "Province1",
   "Postalcode1"]

def startSub : String := "this tenancy created by this agreement starts on"

def endSub : String := "this tenancy created by this agreement ends on"

def rentSub : String := "the tenant will pay the rent of"

/-- `for field_name in fields.keys(): if sub in field_name.lower(): ...; break`:
returns the value of the first field whose lowercased name contains `sub`
(`some v`, even when `v` is falsy, mirroring the unconditional `break`), or
`none` when no field name matches. -/
def scanFirst (sub : String) : FormFieldSet → Option (Option String)
  | [] => none
  | (name, val) :: rest =>
    if pyIn sub (pyLower name) then some val else scanFirst sub rest

/-- One address part: first field whose lowercased name contains the lowercased
identifier; contributes its trimmed value only when the value is truthy. -/
def addrPart (ident : String) (fields : FormFieldSet) : List String :=
  match scanFirst (pyLower ident) fields with
  | some v => if truthy v then [pyStrip (v.getD "")] else []
  | none => []

/-- Day extraction for the lease dates (and the rent lookup, which has the
same loop shape): trimmed value of the first name-matching field when truthy,
otherwise `""`. -/
def findDay (sub : String) (fields : FormFieldSet) : String :=
  match scanFirst sub fields with
  | some v => if truthy v then pyStrip (v.getD "") else ""
  | none => ""

/-- `fields.get(name, {}).get("/V")`: exact-name lookup. -/
def getField (fields : FormFieldSet) (name : String) : Option String :=
  match fields.find? (fun f => f.1 == name) with
  | some f => f.2
  | none => none

/-- One step of the simple-mapping loop body for a single field. -/
def mapStep (r : Record) (f : String × Option String) : Record :=
  match firstMapHit (pyLower (pyStrip f.1)) mappingList with
  | some ck => if truthy f.2 then setCol r ck (pyStrip (f.2.getD "")) else r
  | none => r

/-- The simple-mapping loop over all fields. -/
def mapPhase (r : Record) (fields : FormFieldSet) : Record :=
  fields.foldl mapStep r

/-- `address_parts` accumulated over the five identifiers. -/
def addrParts (fields : FormFieldSet) : List String :=
  (addrIdents.map (fun id => addrPart id fields)).flatten

/-- `if address_parts: output_data["Address"] = ", ".join(address_parts)`. -/
def addrPhase (r : Record) (fields : FormFieldSet) : Record :=
  if (addrParts fields).isEmpty then r
  else { r with address := sepJoin ", " (addrParts fields) }

/-- The two lease-date blocks of the source. -/
def datePhase (r : Record) (fields : FormFieldSet) : Record :=
  let sd := findDay startSub fields
  let m1 := pyStrip ((getField fields "month1").getD "")
  let y1 := pyStrip ((getField fields "year1").getD "")
  let r1 :=
    if !(strEmpty sd) || !(strEmpty m1) || !(strEmpty y1) then
      { r with leaseStartDate := pyStrip (sd ++ " " ++ m1 ++ " " ++ y1) }
    else r
  let ed := findDay endSub fields
  let m2 := pyStrip ((getField fields "month2").getD "")
  let y2 := pyStrip ((getField fields "year2").getD "")
  if !(strEmpty ed) || !(strEmpty m2) || !(strEmpty y2) then
    { r1 with leaseExpiryDate := pyStrip (ed ++ " " ++ m2 ++ " " ++ y2) }
  else r1

/-- The Monthly Rent block of the source. -/
def rentPhase (r : Record) (fields : FormFieldSet) : Record :=
  match scanFirst rentSub fields with
  | some v => if truthy v then { r with monthlyRent := pyStrip (v.getD "") } else r
  | none => r

/-- `build_csv_row_from_fields`, the Field Mapper of the source. -/
def build_csv_row_from_fields (fields : FormFieldSet) : Record :=
  rentPhase (datePhase (addrPhase (mapPhase emptyRecord fields) fields) fields)
    fields

/-! ### The CSV append sink and handler -/

/-- Does a CSV field need quoting under `csv.QUOTE_MINIMAL` (excel dialect)? -/
def needsQuote (s : String) : Bool :=
  s.data.any (fun c => c == ',' || c == '"' || c == '\r' || c == '\n')

/-- Double every quote character, as the csv writer does inside quotes. -/
def escQuotes (l : List Char) : List Char :=
  l.foldr (fun c acc => if c == '"' then '"' :: '"' :: acc else c :: acc) []

/-- Render one CSV field under `QUOTE_MINIMAL`. -/
def csvField (s : String) : String :=
  if needsQuote s then "\"" ++ (⟨escQuotes s.data⟩ : String) ++ "\"" else s

/-- Render one CSV line (excel dialect: `,` delimiter, `\r\n` terminator). -/
def csvLine (vals : List String) : String :=
  sepJoin "," (vals.map csvField) ++ "\r\n"

/-- The header line written by `writer.writeheader()`. -/
def headerLine : String := csvLine csvHeaders

/-- The line written by `writer.writerow(row)`. -/
def rowLine (r : Record) : String := csvLine (recordValues r)

/-- New object body computed from the existing content and the row:
`writeheader()` when the existing content is empty, otherwise the existing
content with trailing newlines stripped plus a single newline; then the row. -/
def appendContent (existing : String) (row : Record) : String :=
  (if strEmpty existing then headerLine else rstripNl existing ++ "\n")
    ++ rowLine row

/-- Outcome of the `s3.get_object` read of the destination CSV. -/
inductive ReadOutcome where
  | ok (content : String)
  | noSuchKey
  | otherErr (msg : String)
deriving DecidableEq

/-- `existing_csv` after the try/except block: both the `NoSuchKey` handler and
the catch-all `except Exception` handler set it to `""`. -/
def existingOf : ReadOutcome → String
  | .ok c => c
  | .noSuchKey => ""
  | .otherErr _ => ""

/-- `append_csv_row_to_s3`: the body passed to `s3.put_object`, as an
`Option String` (`some` = the put executes with that body, `none` would mean
the call raised before any put; the source never raises, so the result is
always `some`). -/
def append_csv_row_to_s3 (outcome : ReadOutcome) (row : Record) : Option String :=
  some (appendContent (existingOf outcome) row)

/-- Read outcome produced by a destination object state (`none` = object does
not exist, raising `NoSuchKey`). -/
def readOutcomeOf : Option String → ReadOutcome
  | none => .noSuchKey
  | some c => .ok c

/-- Destination object state after an append (error-free storage). -/
def s3AppendState (st : Option String) (row : Record) : Option String :=
  append_csv_row_to_s3 (readOutcomeOf st) row

/-- `lambda_handler` from the point where the form fields have been extracted:
returns the status code and the destination object state after the call. -/
def lambda_handler (fields : FormFieldSet) (st : Option String) :
    Nat × Option String :=
  if fields.isEmpty then (400, st)
  else (200, s3AppendState st (build_csv_row_from_fields fields))

/-! ### Specification-side definitions -/

/-- Single-space joining of the non-empty parts, as the spec words it. -/
def joinNonEmpty (parts : List String) : String :=
  sepJoin " " (parts.filter (fun s => !(strEmpty s)))

/-- The date string the code actually produces from trimmed parts `d m y`
(claim C4, amended): single-space joining except in the day-and-year-only
case, which keeps the two separators. -/
def dateFormula (d m y : String) : String :=
  if !(strEmpty d) && strEmpty m && !(strEmpty y) then d ++ "  " ++ y
  else joinNonEmpty [d, m, y]

/-- Spec-side contribution of one identifier to the Address: the first field
(in iteration order) whose lowercased name contains the lowercased identifier
contributes its trimmed value when truthy. -/
def addrOptSpec (id : String) (fields : FormFieldSet) : Option String :=
  match fields.find? (fun f => pyIn (pyLower id) (pyLower f.1)) with
  | some f => if truthy f.2 then some (pyStrip (f.2.getD "")) else none
  | none => none

/-- Spec-side address builder: for each identifier in order, the first field
whose lowercased name contains the lowercased identifier contributes its
trimmed value when truthy; parts joined by `", "`. -/
def buildAddressSpec (fields : FormFieldSet) : String :=
  sepJoin ", " (addrIdents.filterMap (fun id => addrOptSpec id fields))

/-- Does a field name match any recognized key of the Field Mapper? -/
def recognizedName (n : String) : Bool :=
  mappingList.any (fun m => pyIn m.1 (pyLower (pyStrip n)))
  || addrIdents.any (fun id => pyIn (pyLower id) (pyLower n))
  || pyIn startSub (pyLower n) || pyIn endSub (pyLower n)
  || n == "month1" || n == "year1" || n == "month2" || n == "year2"
  || pyIn rentSub (pyLower n)

/-- `endsTwoNl s` holds when `s` ends with two consecutive newline characters. -/
def endsTwoNl (s : String) : Bool :=
  match s.data.reverse with
  | '\n' :: '\n' :: _ => true
  | _ => false

/-- Is `p` an initial segment of `s`? -/
def strLeads (p s : String) : Bool := leadsWith p.data s.data

/-! ### Basic lemmas about the string primitives -/

set_option maxRecDepth 8192

theorem strData_append (a b : String) : (a ++ b).data = a.data ++ b.data := rfl

theorem strExt {a b : String} (h : a.data = b.data) : a = b :=
  congrArg String.mk h

theorem strAppend_assoc (a b c : String) : a ++ b ++ c = a ++ (b ++ c) :=
  strExt (by simp [strData_append])

theorem leadsWith_append (l w : List Char) : leadsWith l (l ++ w) = true := by
  induction l with
  | nil => rfl
  | cons c t ih => simp [leadsWith, ih]

/-- Leading / trailing whitespace predicates for character lists. -/
def noLeadSp : List Char → Bool
  | [] => true
  | c :: _ => !isPySpace c

def noTailSp (l : List Char) : Bool := noLeadSp l.reverse

/-- A string with no leading and no trailing Python whitespace. -/
def trimmedB (s : String) : Bool := noLeadSp s.data && noTailSp s.data

theorem dropWhile_of_noLead {l : List Char} (h : noLeadSp l = true) :
    l.dropWhile isPySpace = l := by
  cases l with
  | nil => rfl
  | cons c t =>
    simp [noLeadSp] at h
    simp [List.dropWhile_cons, h]

theorem noLead_dropWhile (l : List Char) :
    noLeadSp (l.dropWhile isPySpace) = true := by
  induction l with
  | nil => rfl
  | cons c t ih =>
    by_cases hc : isPySpace c = true
    · simp [List.dropWhile_cons, hc, ih]
    · simp only [Bool.not_eq_true] at hc
      simp [List.dropWhile_cons, hc, noLeadSp]

theorem rstrip_of_noTail {l : List Char} (h : noTailSp l = true) :
    rstripWith isPySpace l = l := by
  unfold noTailSp at h
  unfold rstripWith
  rw [dropWhile_of_noLead h, List.reverse_reverse]

theorem noTail_rstrip (l : List Char) :
    noTailSp (rstripWith isPySpace l) = true := by
  unfold noTailSp rstripWith
  rw [List.reverse_reverse]
  exact noLead_dropWhile _

theorem noLead_rstrip_of_noLead {l : List Char} (h : noLeadSp l = true) :
    noLeadSp (rstripWith isPySpace l) = true := by
  have h1 : l.reverse.takeWhile isPySpace ++ l.reverse.dropWhile isPySpace
      = l.reverse := List.takeWhile_append_dropWhile isPySpace l.reverse
  have h2 := congrArg List.reverse h1
  rw [List.reverse_append, List.reverse_reverse] at h2
  unfold rstripWith
  cases hw : (l.reverse.dropWhile isPySpace).reverse with
  | nil => rfl
  | cons c cs =>
    rw [← h2, hw, List.cons_append] at h
    simpa [noLeadSp] using h

theorem trimmed_pyStrip (s : String) : trimmedB (pyStrip s) = true := by
  have h1 : noLeadSp (stripL s.data) = true :=
    noLead_rstrip_of_noLead (noLead_dropWhile _)
  have h2 : noTailSp (stripL s.data) = true := noTail_rstrip _
  simp [trimmedB, pyStrip, h1, h2]

theorem trimmed_findDay (sub : String) (fields : FormFieldSet) :
    trimmedB (findDay sub fields) = true := by
  unfold findDay
  cases scanFirst sub fields with
  | none => decide
  | some v =>
    by_cases htv : truthy v = true
    · simp [htv, trimmed_pyStrip]
    · simp only [Bool.not_eq_true] at htv
      simp [htv]
      decide

/-! ### Lemmas about the CSV append sink -/

theorem strEmpty_append (a b : String) :
    strEmpty (a ++ b) = (strEmpty a && strEmpty b) := by
  unfold strEmpty
  rw [strData_append]
  cases a.data <;> cases b.data <;> simp

theorem rstripNl_append_crlf (x : String) : rstripNl (x ++ "\r\n") = x ++ "\r" := by
  apply strExt
  have hd : (x ++ "\r\n").data = x.data ++ ['\r', '\n'] := by
    rw [strData_append]
  have hd2 : (x ++ "\r").data = x.data ++ ['\r'] := by
    rw [strData_append]
  show rstripWith (fun c => c == '\n') (x ++ "\r\n").data = (x ++ "\r").data
  rw [hd, hd2]
  unfold rstripWith
  rw [show (['\r', '\n'] : List Char) = ['\r'] ++ ['\n'] from rfl,
    ← List.append_assoc, List.reverse_append]
  simp [List.dropWhile]

theorem appendContent_terminated (x : String) (row : Record) :
    appendContent (x ++ "\r\n") row = (x ++ "\r\n") ++ rowLine row := by
  unfold appendContent
  have h1 : strEmpty (x ++ "\r\n") = false := by
    rw [strEmpty_append]
    have h2 : strEmpty "\r\n" = false := by decide
    simp [h2]
  rw [h1]
  simp only [Bool.false_eq_true, if_false]
  rw [rstripNl_append_crlf]
  apply strExt
  simp only [strData_append, List.append_assoc]
  have h3 : ("\r" : String).data ++ ("\n" : String).data = ("\r\n" : String).data := by
    decide
  rw [← List.append_assoc ("\r" : String).data, h3]

/-! ### The lease-date joining lemma (claim C4) -/

theorem rstrip_append_of_noTail {A B : List Char} (h1 : noTailSp B = true)
    (h2 : B ≠ []) : rstripWith isPySpace (A ++ B) = A ++ B := by
  unfold rstripWith
  rw [List.reverse_append]
  cases hb : B.reverse with
  | nil => exact absurd (by simpa using congrArg List.reverse hb) h2
  | cons c cs =>
    unfold noTailSp at h1
    rw [hb] at h1
    simp only [noLeadSp, Bool.not_eq_true'] at h1
    rw [List.cons_append, List.dropWhile_cons]
    simp only [h1, Bool.false_eq_true, if_false]
    rw [← List.cons_append, ← hb, ← List.reverse_append, List.reverse_reverse]

theorem rstrip_append_space {A : List Char} {c : Char} (hc : isPySpace c = true) :
    rstripWith isPySpace (A ++ [c]) = rstripWith isPySpace A := by
  unfold rstripWith
  rw [List.reverse_append]
  simp [List.dropWhile_cons, hc]

theorem stripL_join3 (D M Y : List Char)
    (hD1 : noLeadSp D = true) (hD2 : noTailSp D = true)
    (hM1 : noLeadSp M = true) (hM2 : noTailSp M = true)
    (hY1 : noLeadSp Y = true) (hY2 : noTailSp Y = true) :
    stripL (D ++ [' '] ++ M ++ [' '] ++ Y) =
      if D.isEmpty then
        if M.isEmpty then (if Y.isEmpty then [] else Y)
        else (if Y.isEmpty then M else M ++ [' '] ++ Y)
      else
        if M.isEmpty then (if Y.isEmpty then D else D ++ [' ', ' '] ++ Y)
        else (if Y.isEmpty then D ++ [' '] ++ M
              else D ++ [' '] ++ M ++ [' '] ++ Y) := by
  have hsp : isPySpace ' ' = true := by decide
  have hdw : ∀ X : List Char,
      List.dropWhile isPySpace (' ' :: X) = List.dropWhile isPySpace X := by
    intro X
    rw [List.dropWhile_cons]
    simp [hsp]
  cases D with
  | nil =>
    cases M with
    | nil =>
      cases Y with
      | nil => decide
      | cons yc yt =>
        rw [show ([] : List Char) ++ [' '] ++ [] ++ [' '] ++ (yc :: yt)
            = ' ' :: ' ' :: yc :: yt from by simp]
        unfold stripL lstripL
        rw [hdw, hdw, dropWhile_of_noLead hY1, rstrip_of_noTail hY2]
        simp
    | cons mc mt =>
      have hmc : isPySpace mc = false := by simpa [noLeadSp] using hM1
      have hstopM : ∀ X : List Char,
          List.dropWhile isPySpace (mc :: X) = mc :: X := by
        intro X
        rw [List.dropWhile_cons]
        simp [hmc]
      cases Y with
      | nil =>
        rw [show ([] : List Char) ++ [' '] ++ (mc :: mt) ++ [' '] ++ []
            = ' ' :: mc :: (mt ++ [' ']) from by simp]
        unfold stripL lstripL
        rw [hdw, hstopM]
        rw [show mc :: (mt ++ [' ']) = (mc :: mt) ++ [' '] from by simp]
        rw [rstrip_append_space hsp, rstrip_of_noTail hM2]
        simp
      | cons yc yt =>
        rw [show ([] : List Char) ++ [' '] ++ (mc :: mt) ++ [' '] ++ (yc :: yt)
            = ' ' :: mc :: (mt ++ ' ' :: yc :: yt) from by simp]
        unfold stripL lstripL
        rw [hdw, hstopM]
        rw [show mc :: (mt ++ ' ' :: yc :: yt)
            = (mc :: (mt ++ [' '])) ++ (yc :: yt) from by simp]
        rw [rstrip_append_of_noTail hY2 (by simp)]
        simp
  | cons dc dt =>
    have hdc : isPySpace dc = false := by simpa [noLeadSp] using hD1
    have hstopD : ∀ X : List Char,
        List.dropWhile isPySpace (dc :: X) = dc :: X := by
      intro X
      rw [List.dropWhile_cons]
      simp [hdc]
    cases M with
    | nil =>
      cases Y with
      | nil =>
        rw [show (dc :: dt) ++ [' '] ++ [] ++ [' '] ++ []
            = dc :: (dt ++ [' ', ' ']) from by simp]
        unfold stripL lstripL
        rw [hstopD]
        rw [show dc :: (dt ++ [' ', ' '])
            = ((dc :: dt) ++ [' ']) ++ [' '] from by simp]
        rw [rstrip_append_space hsp, rstrip_append_space hsp,
          rstrip_of_noTail hD2]
        simp
      | cons yc yt =>
        rw [show (dc :: dt) ++ [' '] ++ [] ++ [' '] ++ (yc :: yt)
            = dc :: (dt ++ ' ' :: ' ' :: yc :: yt) from by simp]
        unfold stripL lstripL
        rw [hstopD]
        rw [show dc :: (dt ++ ' ' :: ' ' :: yc :: yt)
            = (dc :: (dt ++ [' ', ' '])) ++ (yc :: yt) from by simp]
        rw [rstrip_append_of_noTail hY2 (by simp)]
        simp
    | cons mc mt =>
      cases Y with
      | nil =>
        rw [show (dc :: dt) ++ [' '] ++ (mc :: mt) ++ [' '] ++ []
            = dc :: (dt ++ ' ' :: mc :: (mt ++ [' '])) from by simp]
        unfold stripL lstripL
        rw [hstopD]
        rw [show dc :: (dt ++ ' ' :: mc :: (mt ++ [' ']))
            = (dc :: (dt ++ ' ' :: mc :: mt)) ++ [' '] from by simp]
        rw [rstrip_append_space hsp]
        rw [show dc :: (dt ++ ' ' :: mc :: mt)
            = (dc :: (dt ++ [' '])) ++ (mc :: mt) from by simp]
        rw [rstrip_append_of_noTail hM2 (by simp)]
        simp
      | cons yc yt =>
        rw [show (dc :: dt) ++ [' '] ++ (mc :: mt) ++ [' '] ++ (yc :: yt)
            = dc :: (dt ++ ' ' :: mc :: (mt ++ ' ' :: yc :: yt)) from by simp]
        unfold stripL lstripL
        rw [hstopD]
        rw [show dc :: (dt ++ ' ' :: mc :: (mt ++ ' ' :: yc :: yt))
            = (dc :: (dt ++ ' ' :: mc :: (mt ++ [' ']))) ++ (yc :: yt)
            from by simp]
        rw [rstrip_append_of_noTail hY2 (by simp)]
        simp

theorem pyStrip_join3 (d m y : String) (hd : trimmedB d = true)
    (hm : trimmedB m = true) (hy : trimmedB y = true) :
    pyStrip (d ++ " " ++ m ++ " " ++ y) = dateFormula d m y := by
  simp only [trimmedB, Bool.and_eq_true] at hd hm hy
  apply strExt
  have hL : (pyStrip (d ++ " " ++ m ++ " " ++ y)).data
      = stripL (d.data ++ [' '] ++ m.data ++ [' '] ++ y.data) := rfl
  rw [hL, stripL_join3 d.data m.data y.data hd.1 hd.2 hm.1 hm.2 hy.1 hy.2]
  unfold dateFormula joinNonEmpty strEmpty
  by_cases hD : d.data.isEmpty = true <;>
    by_cases hM : m.data.isEmpty = true <;>
      by_cases hY : y.data.isEmpty = true <;>
        simp [hD, hM, hY, List.filter, sepJoin, strData_append,
          List.append_assoc]

/-! ### Which columns each phase of the Field Mapper can touch -/

theorem firstMapHit_mem {k ck : String} {l : List (String × String)}
    (h : firstMapHit k l = some ck) : ck ∈ l.map Prod.snd := by
  induction l with
  | nil => simp [firstMapHit] at h
  | cons p rest ih =>
    obtain ⟨pk, ck2⟩ := p
    by_cases hp : pyIn pk k = true
    · simp [firstMapHit, hp] at h
      simp [h]
    · simp only [Bool.not_eq_true] at hp
      simp only [firstMapHit, hp, Bool.false_eq_true, if_false] at h
      simp [ih h]

theorem setCol_keeps (r : Record) (ck v : String)
    (h : ck ∈ mappingList.map Prod.snd) :
    (setCol r ck v).address = r.address ∧
    (setCol r ck v).leaseStartDate = r.leaseStartDate ∧
    (setCol r ck v).leaseExpiryDate = r.leaseExpiryDate ∧
    (setCol r ck v).monthlyRent = r.monthlyRent := by
  simp only [mappingList, List.map_cons, List.map_nil, List.mem_cons,
    List.not_mem_nil, or_false] at h
  rcases h with rfl | rfl | rfl | rfl | rfl | rfl | rfl | rfl | rfl <;>
    exact ⟨rfl, rfl, rfl, rfl⟩

theorem mapStep_keeps (r : Record) (f : String × Option String) :
    (mapStep r f).address = r.address ∧
    (mapStep r f).leaseStartDate = r.leaseStartDate ∧
    (mapStep r f).leaseExpiryDate = r.leaseExpiryDate ∧
    (mapStep r f).monthlyRent = r.monthlyRent := by
  unfold mapStep
  cases hm : firstMapHit (pyLower (pyStrip f.1)) mappingList with
  | none => exact ⟨rfl, rfl, rfl, rfl⟩
  | some ck =>
    by_cases ht : truthy f.2 = true
    · simp only [ht, if_true]
      exact setCol_keeps r ck _ (firstMapHit_mem hm)
    · simp only [Bool.not_eq_true] at ht
      simp [ht]

theorem mapPhase_keeps (fields : FormFieldSet) (r : Record) :
    (mapPhase r fields).address = r.address ∧
    (mapPhase r fields).leaseStartDate = r.leaseStartDate ∧
    (mapPhase r fields).leaseExpiryDate = r.leaseExpiryDate ∧
    (mapPhase r fields).monthlyRent = r.monthlyRent := by
  induction fields generalizing r with
  | nil => exact ⟨rfl, rfl, rfl, rfl⟩
  | cons f rest ih =>
    have h1 := mapStep_keeps r f
    have h2 := ih (mapStep r f)
    unfold mapPhase at h2 ⊢
    rw [List.foldl_cons]
    exact ⟨h2.1.trans h1.1, h2.2.1.trans h1.2.1, h2.2.2.1.trans h1.2.2.1,
      h2.2.2.2.trans h1.2.2.2⟩

theorem addrPhase_keeps (r : Record) (fields : FormFieldSet) :
    (addrPhase r fields).leaseStartDate = r.leaseStartDate ∧
    (addrPhase r fields).leaseExpiryDate = r.leaseExpiryDate ∧
    (addrPhase r fields).monthlyRent = r.monthlyRent := by
  unfold addrPhase
  by_cases h : (addrParts fields).isEmpty = true <;> simp [h]

theorem addrPhase_address (r : Record) (fields : FormFieldSet) :
    (addrPhase r fields).address =
      if (addrParts fields).isEmpty then r.address
      else sepJoin ", " (addrParts fields) := by
  unfold addrPhase
  by_cases h : (addrParts fields).isEmpty = true <;> simp [h]

theorem datePhase_keeps (r : Record) (fields : FormFieldSet) :
    (datePhase r fields).address = r.address ∧
    (datePhase r fields).monthlyRent = r.monthlyRent := by
  unfold datePhase
  by_cases h1 : (!(strEmpty (findDay startSub fields))
      || !(strEmpty (pyStrip ((getField fields "month1").getD "")))
      || !(strEmpty (pyStrip ((getField fields "year1").getD "")))) = true <;>
    by_cases h2 : (!(strEmpty (findDay endSub fields))
        || !(strEmpty (pyStrip ((getField fields "month2").getD "")))
        || !(strEmpty (pyStrip ((getField fields "year2").getD "")))) = true <;>
      simp [h1, h2]

theorem datePhase_start (r : Record) (fields : FormFieldSet) :
    (datePhase r fields).leaseStartDate =
      if !(strEmpty (findDay startSub fields))
          || !(strEmpty (pyStrip ((getField fields "month1").getD "")))
          || !(strEmpty (pyStrip ((getField fields "year1").getD ""))) then
        pyStrip (findDay startSub fields ++ " "
          ++ pyStrip ((getField fields "month1").getD "") ++ " "
          ++ pyStrip ((getField fields "year1").getD ""))
      else r.leaseStartDate := by
  unfold datePhase
  by_cases h1 : (!(strEmpty (findDay startSub fields))
      || !(strEmpty (pyStrip ((getField fields "month1").getD "")))
      || !(strEmpty (pyStrip ((getField fields "year1").getD "")))) = true <;>
    by_cases h2 : (!(strEmpty (findDay endSub fields))
        || !(strEmpty (pyStrip ((getField fields "month2").getD "")))
        || !(strEmpty (pyStrip ((getField fields "year2").getD "")))) = true <;>
      simp [h1, h2]

theorem datePhase_end (r : Record) (fields : FormFieldSet) :
    (datePhase r fields).leaseExpiryDate =
      if !(strEmpty (findDay endSub fields))
          || !(strEmpty (pyStrip ((getField fields "month2").getD "")))
          || !(strEmpty (pyStrip ((getField fields "year2").getD ""))) then
        pyStrip (findDay endSub fields ++ " "
          ++ pyStrip ((getField fields "month2").getD "") ++ " "
          ++ pyStrip ((getField fields "year2").getD ""))
      else r.leaseExpiryDate := by
  unfold datePhase
  by_cases h1 : (!(strEmpty (findDay startSub fields))
      || !(strEmpty (pyStrip ((getField fields "month1").getD "")))
      || !(strEmpty (pyStrip ((getField fields "year1").getD "")))) = true <;>
    by_cases h2 : (!(strEmpty (findDay endSub fields))
        || !(strEmpty (pyStrip ((getField fields "month2").getD "")))
        || !(strEmpty (pyStrip ((getField fields "year2").getD "")))) = true <;>
      simp [h1, h2]

theorem rentPhase_keeps (r : Record) (fields : FormFieldSet) :
    (rentPhase r fields).address = r.address ∧
    (rentPhase r fields).leaseStartDate = r.leaseStartDate ∧
    (rentPhase r fields).leaseExpiryDate = r.leaseExpiryDate := by
  unfold rentPhase
  cases scanFirst rentSub fields with
  | none => exact ⟨rfl, rfl, rfl⟩
  | some v => by_cases h : truthy v = true <;> simp [h]

/-! ### Column-level characterizations of the Field Mapper -/

theorem build_address (fields : FormFieldSet) :
    (build_csv_row_from_fields fields).address =
      sepJoin ", " (addrParts fields) := by
  unfold build_csv_row_from_fields
  rw [(rentPhase_keeps _ _).1, (datePhase_keeps _ _).1, addrPhase_address,
    (mapPhase_keeps fields emptyRecord).1]
  by_cases h : (addrParts fields).isEmpty = true
  · have h2 : addrParts fields = [] := by simpa using h
    simp [h, h2, sepJoin, emptyRecord]
  · simp [h]

theorem build_start (fields : FormFieldSet) :
    (build_csv_row_from_fields fields).leaseStartDate =
      if !(strEmpty (findDay startSub fields))
          || !(strEmpty (pyStrip ((getField fields "month1").getD "")))
          || !(strEmpty (pyStrip ((getField fields "year1").getD ""))) then
        pyStrip (findDay startSub fields ++ " "
          ++ pyStrip ((getField fields "month1").getD "") ++ " "
          ++ pyStrip ((getField fields "year1").getD ""))
      else "" := by
  unfold build_csv_row_from_fields
  rw [(rentPhase_keeps _ _).2.1, datePhase_start, (addrPhase_keeps _ _).1,
    (mapPhase_keeps fields emptyRecord).2.1]
  rfl

theorem build_end (fields : FormFieldSet) :
    (build_csv_row_from_fields fields).leaseExpiryDate =
      if !(strEmpty (findDay endSub fields))
          || !(strEmpty (pyStrip ((getField fields "month2").getD "")))
          || !(strEmpty (pyStrip ((getField fields "year2").getD ""))) then
        pyStrip (findDay endSub fields ++ " "
          ++ pyStrip ((getField fields "month2").getD "") ++ " "
          ++ pyStrip ((getField fields "year2").getD ""))
      else "" := by
  unfold build_csv_row_from_fields
  rw [(rentPhase_keeps _ _).2.2, datePhase_end, (addrPhase_keeps _ _).2.1,
    (mapPhase_keeps fields emptyRecord).2.2.1]
  rfl

theorem scanFirst_eq (sub : String) (fields : FormFieldSet) :
    scanFirst sub fields
      = (fields.find? (fun f => pyIn sub (pyLower f.1))).map Prod.snd := by
  induction fields with
  | nil => rfl
  | cons f rest ih =>
    obtain ⟨n, v⟩ := f
    by_cases h : pyIn sub (pyLower n) = true
    · rw [List.find?_cons_of_pos _ (by simpa using h)]
      simp [scanFirst, h]
    · rw [List.find?_cons_of_neg _ (by simpa using h)]
      simp only [Bool.not_eq_true] at h
      simp [scanFirst, h, ih]

theorem addrPart_eq (id : String) (fields : FormFieldSet) :
    addrPart id fields = (addrOptSpec id fields).toList := by
  unfold addrPart addrOptSpec
  rw [scanFirst_eq]
  cases hf : fields.find? (fun f => pyIn (pyLower id) (pyLower f.1)) with
  | none => rfl
  | some f => by_cases h : truthy f.2 = true <;> simp [h]

theorem addrParts_filterMap (fields : FormFieldSet) (ids : List String) :
    (ids.map (fun id => addrPart id fields)).flatten
      = ids.filterMap (fun id => addrOptSpec id fields) := by
  induction ids with
  | nil => rfl
  | cons i rest ih =>
    rw [List.map_cons, List.flatten_cons, addrPart_eq, ih,
      List.filterMap_cons]
    cases addrOptSpec i fields <;> simp

/-! ### Prefix preservation of the append sink (claim C2) -/

theorem leads_rstrip_nl (L T : List Char)
    (h : endsTwoNl (⟨L⟩ : String) = false) :
    leadsWith L (rstripWith (fun c => c == '\n') L ++ '\n' :: T) = true := by
  unfold endsTwoNl at h
  cases hr : L.reverse with
  | nil =>
    have hL : L = [] := by simpa using congrArg List.reverse hr
    subst hL
    rfl
  | cons c cs =>
    by_cases hc : c = '\n'
    · subst hc
      cases cs with
      | nil =>
        have hL : L = ['\n'] := by simpa using congrArg List.reverse hr
        subst hL
        simp [rstripWith, List.dropWhile, leadsWith]
      | cons c2 cs2 =>
        rw [show (String.mk L).data = L from rfl, hr] at h
        by_cases hc2 : c2 = '\n'
        · subst hc2
          simp at h
        · have hc2b : (c2 == '\n') = false := by simp [hc2]
          have hL : L = (c2 :: cs2).reverse ++ ['\n'] := by
            have h3 := congrArg List.reverse hr
            simpa using h3
          have hrs : rstripWith (fun c => c == '\n') L = (c2 :: cs2).reverse := by
            unfold rstripWith
            rw [hr, List.dropWhile_cons]
            simp only [show (('\n' : Char) == '\n') = true from by decide,
              if_true]
            rw [List.dropWhile_cons]
            simp [hc2b]
          rw [hrs, hL]
          have h4 := leadsWith_append ((c2 :: cs2).reverse ++ ['\n']) T
          simpa [List.append_assoc] using h4
    · have hcb : (c == '\n') = false := by simp [hc]
      have hrs : rstripWith (fun x => x == '\n') L = L := by
        unfold rstripWith
        rw [hr, List.dropWhile_cons]
        simp only [hcb, Bool.false_eq_true, if_false]
        rw [← hr, List.reverse_reverse]
      rw [hrs]
      exact leadsWith_append L ('\n' :: T)

/-! ### No-op lemmas for unrecognized or valueless fields (claims C8, C9) -/

theorem firstMapHit_none {k : String} {l : List (String × String)}
    (h : ∀ p ∈ l, pyIn p.1 k = false) : firstMapHit k l = none := by
  induction l with
  | nil => rfl
  | cons p rest ih =>
    obtain ⟨pk, ck⟩ := p
    have h1 : pyIn pk k = false := h (pk, ck) (by simp)
    simp only [firstMapHit, h1, Bool.false_eq_true, if_false]
    exact ih (fun q hq => h q (by simp [hq]))

theorem scanFirst_none {sub : String} {fields : FormFieldSet}
    (h : ∀ f ∈ fields, pyIn sub (pyLower f.1) = false) :
    scanFirst sub fields = none := by
  induction fields with
  | nil => rfl
  | cons f rest ih =>
    obtain ⟨n, v⟩ := f
    have h1 : pyIn sub (pyLower n) = false := h (n, v) (by simp)
    simp only [scanFirst, h1, Bool.false_eq_true, if_false]
    exact ih (fun q hq => h q (by simp [hq]))

theorem getField_none {name : String} {fields : FormFieldSet}
    (h : ∀ f ∈ fields, (f.1 == name) = false) :
    getField fields name = none := by
  unfold getField
  have h2 : fields.find? (fun f => f.1 == name) = none :=
    List.find?_eq_none.mpr (fun x hx => by simp [h x hx])
  rw [h2]

theorem mapPhase_id {fields : FormFieldSet}
    (h : ∀ f ∈ fields, firstMapHit (pyLower (pyStrip f.1)) mappingList = none) :
    ∀ r, mapPhase r fields = r := by
  induction fields with
  | nil => intro r; rfl
  | cons f rest ih =>
    intro r
    unfold mapPhase at ih ⊢
    rw [List.foldl_cons]
    have h1 : mapStep r f = r := by
      unfold mapStep
      rw [h f (by simp)]
    rw [h1]
    exact ih (fun q hq => h q (by simp [hq])) r

theorem recognized_split {n : String} (h : recognizedName n = false) :
    (∀ p ∈ mappingList, pyIn p.1 (pyLower (pyStrip n)) = false)
    ∧ (∀ id ∈ addrIdents, pyIn (pyLower id) (pyLower n) = false)
    ∧ pyIn startSub (pyLower n) = false
    ∧ pyIn endSub (pyLower n) = false
    ∧ (n == "month1") = false ∧ (n == "year1") = false
    ∧ (n == "month2") = false ∧ (n == "year2") = false
    ∧ pyIn rentSub (pyLower n) = false := by
  simp only [recognizedName, Bool.or_eq_false_iff] at h
  obtain ⟨⟨⟨⟨⟨⟨⟨⟨hA, hB⟩, hC1⟩, hC2⟩, hD1⟩, hD2⟩, hD3⟩, hD4⟩, hE⟩ := h
  refine ⟨?_, ?_, hC1, hC2, hD1, hD2, hD3, hD4, hE⟩
  · intro p hp
    have := List.any_eq_false.mp hA p hp
    simpa using this
  · intro id hid
    have := List.any_eq_false.mp hB id hid
    simpa using this

theorem scanFirst_map_none (names : List String) (sub : String) :
    scanFirst sub (names.map (fun n => (n, (none : Option String)))) = none
    ∨ scanFirst sub (names.map (fun n => (n, (none : Option String))))
        = some none := by
  induction names with
  | nil => exact Or.inl rfl
  | cons n rest ih =>
    by_cases h : pyIn sub (pyLower n) = true
    · exact Or.inr (by simp [scanFirst, h])
    · simp only [Bool.not_eq_true] at h
      simpa [scanFirst, h] using ih

theorem addrPart_map_none (id : String) (names : List String) :
    addrPart id (names.map (fun n => (n, (none : Option String)))) = [] := by
  unfold addrPart
  rcases scanFirst_map_none names (pyLower id) with h | h <;> rw [h]
  rfl

theorem findDay_map_none (sub : String) (names : List String) :
    findDay sub (names.map (fun n => (n, (none : Option String)))) = "" := by
  unfold findDay
  rcases scanFirst_map_none names sub with h | h <;> rw [h]
  rfl

theorem getField_map_none (names : List String) (name : String) :
    getField (names.map (fun n => (n, (none : Option String)))) name = none := by
  unfold getField
  cases hf : (names.map (fun n => (n, (none : Option String)))).find?
      (fun f => f.1 == name) with
  | none => rfl
  | some f =>
    have hmem := List.mem_of_find?_eq_some hf
    obtain ⟨n, _, heq⟩ := List.mem_map.mp hmem
    rw [← heq]

theorem mapStep_none (r : Record) (n : String) : mapStep r (n, none) = r := by
  unfold mapStep
  cases firstMapHit (pyLower (pyStrip n)) mappingList <;> simp [truthy]

theorem mapPhase_map_none (names : List String) (r : Record) :
    mapPhase r (names.map (fun n => (n, (none : Option String)))) = r := by
  induction names generalizing r with
  | nil => rfl
  | cons n rest ih =>
    unfold mapPhase at ih ⊢
    rw [List.map_cons, List.foldl_cons, mapStep_none]
    exact ih r

/-! ### Claim theorems -/

/-- C1 (counterexample): contrary to the claim, a storage read error other
than NoSuchKey is not propagated: `append_csv_row_to_s3` still performs the
overwrite (the result is not `none`), writing header plus the new row and
discarding whatever the destination held. -/
theorem claim_C1_counterexample :
    append_csv_row_to_s3 (ReadOutcome.otherErr "AccessDenied") emptyRecord ≠ none
    ∧ append_csv_row_to_s3 (ReadOutcome.otherErr "AccessDenied") emptyRecord
        = some (headerLine ++ rowLine emptyRecord) := by
  constructor
  · decide
  · decide

/-- C1 (amended): on any read error other than NoSuchKey the exception is
caught, the existing content is treated as empty, and the destination is
overwritten with the header row plus the new row; the error is not
propagated and prior content is not preserved. -/
theorem claim_C1_amended : ∀ (msg : String) (row : Record),
    append_csv_row_to_s3 (ReadOutcome.otherErr msg) row
      = some (headerLine ++ rowLine row) := by
  intro msg row
  rfl

/-- C2 (counterexample): an existing content ending in two newlines is not a
prefix of the new content computed by the append sink — the trailing newline
run is collapsed. -/
theorem claim_C2_counterexample :
    strLeads "a\n\n" (appendContent "a\n\n" emptyRecord) = false
    ∧ appendContent "a\n\n" emptyRecord = "a\n,,,,,,,,,,,,\r\n" := by
  constructor
  · decide
  · decide

/-- C2 (amended): the existing content is an unmodified prefix of the new
content whenever it does not end with two or more consecutive newline
characters (in particular for anything the sink itself wrote); otherwise the
trailing newline run is collapsed to a single newline before appending. -/
theorem claim_C2_amended : ∀ (existing : String) (row : Record),
    endsTwoNl existing = false →
    strLeads existing (appendContent existing row) = true := by
  intro ex row h
  by_cases he : strEmpty ex = true
  · have hd : ex.data = [] := by simpa [strEmpty] using he
    unfold strLeads
    rw [hd]
    rfl
  · unfold appendContent
    rw [show strEmpty ex = false from by simpa using he]
    simp only [Bool.false_eq_true, if_false]
    unfold strLeads
    have hdata : ((rstripNl ex ++ "\n") ++ rowLine row).data
        = rstripWith (fun c => c == '\n') ex.data ++ '\n' :: (rowLine row).data := by
      simp [strData_append, rstripNl, List.append_assoc]
    rw [hdata]
    exact leads_rstrip_nl ex.data (rowLine row).data h

/-- C2 (witness for the amended theorem at a concrete input). -/
theorem claim_C2_witness :
    endsTwoNl "x\r\n" = false
    ∧ strLeads "x\r\n" (appendContent "x\r\n" emptyRecord) = true :=
  ⟨by decide, claim_C2_amended "x\r\n" emptyRecord (by decide)⟩

/-- C3 (code bug): the mapping table declares `"last name_3" ↦ Tenant 1 Last
Name` and `"first and middle names_2" ↦ Landlord 2 First Name`, but the inner
loop breaks on the first matching key and every name containing
`"last name_3"` also contains `"last name"`, so the value lands in the
Landlord 1 column and the Tenant 1 / Landlord 2 columns stay empty. -/
theorem claim_C3_code_bug :
    (build_csv_row_from_fields [("last name_3", some "Smith")]).landlord1Last
        = "Smith"
    ∧ (build_csv_row_from_fields [("last name_3", some "Smith")]).tenant1Last
        = ""
    ∧ (build_csv_row_from_fields
        [("first and middle names_2", some "Jane")]).landlord1First = "Jane"
    ∧ (build_csv_row_from_fields
        [("first and middle names_2", some "Jane")]).landlord2First = "" := by
  refine ⟨by decide, by decide, by decide, by decide⟩

/-- C4 (counterexample): with day `"15"` and year `"2024"` present and the
month absent, the Lease Start Date is `"15  2024"` (two spaces), not the
single-space join `"15 2024"` the claim asserts for every subset of present
parts. -/
theorem claim_C4_counterexample :
    (build_csv_row_from_fields
      [("this tenancy created by this agreement starts on", some "15"),
       ("year1", some "2024")]).leaseStartDate = "15  2024"
    ∧ joinNonEmpty ["15", "", "2024"] = "15 2024"
    ∧ (build_csv_row_from_fields
        [("this tenancy created by this agreement starts on", some "15"),
         ("year1", some "2024")]).leaseStartDate
        ≠ joinNonEmpty ["15", "", "2024"] := by
  refine ⟨by decide, by decide, by decide⟩

/-- C4 (amended): each lease-date column equals the day, month and year parts
joined with one fixed space between adjacent slots and the ends trimmed; this
coincides with single-space joining of the non-empty parts except when day
and year are present and the month is absent, in which case two spaces
separate them (`dateFormula`); the all-present example still gives
`"15 June 2024"`. -/
theorem claim_C4_amended :
    (∀ fields : FormFieldSet,
        (build_csv_row_from_fields fields).leaseStartDate
          = dateFormula (findDay startSub fields)
              (pyStrip ((getField fields "month1").getD ""))
              (pyStrip ((getField fields "year1").getD "")))
    ∧ (∀ fields : FormFieldSet,
        (build_csv_row_from_fields fields).leaseExpiryDate
          = dateFormula (findDay endSub fields)
              (pyStrip ((getField fields "month2").getD ""))
              (pyStrip ((getField fields "year2").getD "")))
    ∧ (build_csv_row_from_fields
        [("this tenancy created by this agreement starts on", some "15"),
         ("month1", some "June"), ("year1", some "2024")]).leaseStartDate
        = "15 June 2024" := by
  refine ⟨?_, ?_, by decide⟩
  · intro fields
    rw [build_start]
    by_cases hguard : (!(strEmpty (findDay startSub fields))
        || !(strEmpty (pyStrip ((getField fields "month1").getD "")))
        || !(strEmpty (pyStrip ((getField fields "year1").getD "")))) = true
    · rw [if_pos hguard]
      exact pyStrip_join3 _ _ _ (trimmed_findDay _ _) (trimmed_pyStrip _)
        (trimmed_pyStrip _)
    · rw [if_neg hguard]
      have hb : (!(strEmpty (findDay startSub fields))
          || !(strEmpty (pyStrip ((getField fields "month1").getD "")))
          || !(strEmpty (pyStrip ((getField fields "year1").getD "")))) = false := by
        simpa using hguard
      simp only [Bool.or_eq_false_iff, Bool.not_eq_false'] at hb
      have hd : findDay startSub fields = "" :=
        strExt (by simpa [strEmpty] using hb.1.1)
      have hm : pyStrip ((getField fields "month1").getD "") = "" :=
        strExt (by simpa [strEmpty] using hb.1.2)
      have hy : pyStrip ((getField fields "year1").getD "") = "" :=
        strExt (by simpa [strEmpty] using hb.2)
      rw [hd, hm, hy]
      decide
  · intro fields
    rw [build_end]
    by_cases hguard : (!(strEmpty (findDay endSub fields))
        || !(strEmpty (pyStrip ((getField fields "month2").getD "")))
        || !(strEmpty (pyStrip ((getField fields "year2").getD "")))) = true
    · rw [if_pos hguard]
      exact pyStrip_join3 _ _ _ (trimmed_findDay _ _) (trimmed_pyStrip _)
        (trimmed_pyStrip _)
    · rw [if_neg hguard]
      have hb : (!(strEmpty (findDay endSub fields))
          || !(strEmpty (pyStrip ((getField fields "month2").getD "")))
          || !(strEmpty (pyStrip ((getField fields "year2").getD "")))) = false := by
        simpa using hguard
      simp only [Bool.or_eq_false_iff, Bool.not_eq_false'] at hb
      have hd : findDay endSub fields = "" :=
        strExt (by simpa [strEmpty] using hb.1.1)
      have hm : pyStrip ((getField fields "month2").getD "") = "" :=
        strExt (by simpa [strEmpty] using hb.1.2)
      have hy : pyStrip ((getField fields "year2").getD "") = "" :=
        strExt (by simpa [strEmpty] using hb.2)
      rw [hd, hm, hy]
      decide

/-- C5: appending to a non-existent (or empty) destination writes exactly the
13-column header line followed by the single data row; a second append to the
resulting state preserves the first data row verbatim and yields header plus
the two data rows in call order, with the header written exactly once. -/
theorem claim_C5 : ∀ r1 r2 : Record,
    s3AppendState none r1 = some (headerLine ++ rowLine r1)
    ∧ s3AppendState (some "") r1 = some (headerLine ++ rowLine r1)
    ∧ s3AppendState (some (headerLine ++ rowLine r1)) r2
        = some (headerLine ++ rowLine r1 ++ rowLine r2)
    ∧ csvHeaders.length = 13
    ∧ headerLine = sepJoin "," csvHeaders ++ "\r\n" := by
  intro r1 r2
  refine ⟨rfl, rfl, ?_, by decide, by decide⟩
  show some (appendContent (headerLine ++ rowLine r1) r2)
      = some (headerLine ++ rowLine r1 ++ rowLine r2)
  have hshape : headerLine ++ rowLine r1
      = (headerLine ++ sepJoin "," ((recordValues r1).map csvField)) ++ "\r\n" := by
    rw [rowLine, csvLine, ← strAppend_assoc]
  rw [hshape, appendContent_terminated]

/-- C6: with an empty extracted field set the handler returns status 400 and
leaves the destination object untouched; with a non-empty field set it
returns status 200 and the destination state after the append. -/
theorem claim_C6 :
    (∀ st : Option String, lambda_handler [] st = (400, st))
    ∧ (∀ (fields : FormFieldSet) (st : Option String), fields ≠ [] →
        lambda_handler fields st
          = (200, s3AppendState st (build_csv_row_from_fields fields))) := by
  constructor
  · intro st
    rfl
  · intro fields st h
    cases fields with
    | nil => exact absurd rfl h
    | cons f rest => rfl

/-- C6 (witness at a concrete input). -/
theorem claim_C6_witness :
    (([("a", some "b")] : FormFieldSet) ≠ [])
    ∧ lambda_handler [("a", some "b")] none
        = (200, s3AppendState none (build_csv_row_from_fields [("a", some "b")])) :=
  ⟨by decide, claim_C6.2 [("a", some "b")] none (by decide)⟩

/-- C7: the Address column equals the spec-side builder: the trimmed values
contributed by the five identifiers in fixed order, joined by `", "`, with
falsy parts skipped; the worked example and the no-match case hold. -/
theorem claim_C7 :
    (∀ fields : FormFieldSet,
        (build_csv_row_from_fields fields).address = buildAddressSpec fields)
    ∧ (build_csv_row_from_fields
        [("unit #", some "4"),
         ("street number and street name1", some "12 Main St"),
         ("City1", some "Springfield")]).address = "4, 12 Main St, Springfield"
    ∧ (build_csv_row_from_fields [("zzz", some "w")]).address = "" := by
  refine ⟨?_, by decide, by decide⟩
  intro fields
  rw [build_address]
  have h1 : addrParts fields
      = addrIdents.filterMap (fun id => addrOptSpec id fields) := by
    unfold addrParts
    exact addrParts_filterMap fields addrIdents
  rw [h1]
  rfl

/-- C8: if no field name matches any recognized key (mapping-table substring,
address identifier, lease-date day substring, exact month/year key, or
rent-clause substring), the Field Mapper returns the all-empty 13-column
record. -/
theorem claim_C8 : ∀ fields : FormFieldSet,
    fields.all (fun f => !(recognizedName f.1)) = true →
    build_csv_row_from_fields fields = emptyRecord := by
  intro fields h
  have hrec : ∀ f ∈ fields, recognizedName f.1 = false := by
    intro f hf
    have := List.all_eq_true.mp h f hf
    simpa using this
  have hsplit := fun f hf => recognized_split (hrec f hf)
  unfold build_csv_row_from_fields
  have hmapPhase : mapPhase emptyRecord fields = emptyRecord :=
    mapPhase_id (fun f hf => firstMapHit_none ((hsplit f hf).1)) emptyRecord
  rw [hmapPhase]
  have haddrParts : addrParts fields = [] := by
    have hpart : ∀ id ∈ addrIdents, addrPart id fields = [] := by
      intro id hid
      unfold addrPart
      rw [scanFirst_none (fun f hf => (hsplit f hf).2.1 id hid)]
    have haux : ∀ ids : List String, (∀ id ∈ ids, addrPart id fields = []) →
        (ids.map (fun id => addrPart id fields)).flatten = ([] : List String) := by
      intro ids
      induction ids with
      | nil => intro _; rfl
      | cons i rest ih =>
        intro hall
        rw [List.map_cons, List.flatten_cons, hall i (by simp),
          ih (fun q hq => hall q (by simp [hq]))]
        rfl
    unfold addrParts
    exact haux addrIdents hpart
  have haddrPhase : addrPhase emptyRecord fields = emptyRecord := by
    unfold addrPhase
    rw [haddrParts]
    rfl
  rw [haddrPhase]
  have hfd1 : findDay startSub fields = "" := by
    unfold findDay
    rw [scanFirst_none (fun f hf => (hsplit f hf).2.2.1)]
  have hfd2 : findDay endSub fields = "" := by
    unfold findDay
    rw [scanFirst_none (fun f hf => (hsplit f hf).2.2.2.1)]
  have hg1 : getField fields "month1" = none :=
    getField_none (fun f hf => (hsplit f hf).2.2.2.2.1)
  have hg2 : getField fields "year1" = none :=
    getField_none (fun f hf => (hsplit f hf).2.2.2.2.2.1)
  have hg3 : getField fields "month2" = none :=
    getField_none (fun f hf => (hsplit f hf).2.2.2.2.2.2.1)
  have hg4 : getField fields "year2" = none :=
    getField_none (fun f hf => (hsplit f hf).2.2.2.2.2.2.2.1)
  have hdate : datePhase emptyRecord fields = emptyRecord := by
    unfold datePhase
    rw [hfd1, hfd2, hg1, hg2, hg3, hg4]
    decide
  rw [hdate]
  unfold rentPhase
  rw [scanFirst_none (fun f hf => (hsplit f hf).2.2.2.2.2.2.2.2)]

/-- C8 (witness at a concrete input with no recognized name). -/
theorem claim_C8_witness :
    ([("foo", some "bar")] : FormFieldSet).all
        (fun f => !(recognizedName f.1)) = true
    ∧ build_csv_row_from_fields [("foo", some "bar")] = emptyRecord :=
  ⟨by decide, claim_C8 [("foo", some "bar")] (by decide)⟩

/-- C9: the Field Mapper is total by construction (every operation of the
source — `dict.get` with defaults, guarded lookups, `str.strip` — is modelled
by a total function, and no reachable operation can raise); in particular a
field set in which every field's `/V` value is absent leaves every one of the
13 columns at its default empty string. -/
theorem claim_C9 : ∀ names : List String,
    build_csv_row_from_fields (names.map (fun n => (n, (none : Option String))))
      = emptyRecord := by
  intro names
  unfold build_csv_row_from_fields
  rw [mapPhase_map_none]
  have haddrParts : addrParts (names.map (fun n => (n, (none : Option String))))
      = [] := by
    unfold addrParts
    simp [addrPart_map_none, addrIdents]
  have haddrPhase : addrPhase emptyRecord
      (names.map (fun n => (n, (none : Option String)))) = emptyRecord := by
    unfold addrPhase
    rw [haddrParts]
    rfl
  rw [haddrPhase]
  have hdate : datePhase emptyRecord
      (names.map (fun n => (n, (none : Option String)))) = emptyRecord := by
    unfold datePhase
    rw [findDay_map_none, findDay_map_none, getField_map_none,
      getField_map_none, getField_map_none, getField_map_none]
    decide
  rw [hdate]
  unfold rentPhase
  rcases scanFirst_map_none names rentSub with h | h <;> rw [h]
  rfl

/-- C10: when building an address part, only the first field (in iteration
order) whose name contains the identifier is consulted: if its value is falsy
(absent or empty) the part is dropped, even though a later field with the
same identifier substring carries a non-empty value. -/
theorem claim_C10 : ∀ (ident n1 n2 : String) (v1 : Option String) (v2 : String)
    (pre mid post : FormFieldSet),
    pre.all (fun f => !(pyIn (pyLower ident) (pyLower f.1))) = true →
    pyIn (pyLower ident) (pyLower n1) = true →
    truthy v1 = false →
    pyIn (pyLower ident) (pyLower n2) = true →
    v2 ≠ "" →
    addrPart ident (pre ++ (n1, v1) :: (mid ++ (n2, some v2) :: post)) = [] := by
  intro ident n1 n2 v1 v2 pre mid post
  induction pre with
  | nil =>
    intro _ h1 hf _ _
    unfold addrPart
    rw [show scanFirst (pyLower ident)
        ([] ++ (n1, v1) :: (mid ++ (n2, some v2) :: post)) = some v1 from by
      simp [scanFirst, h1]]
    simp [hf]
  | cons p rest ih =>
    intro hpre h1 hf h2 hv
    have hsplit : (!(pyIn (pyLower ident) (pyLower p.1))) = true
        ∧ rest.all (fun f => !(pyIn (pyLower ident) (pyLower f.1))) = true := by
      simpa [List.all_cons, Bool.and_eq_true] using hpre
    have hp : pyIn (pyLower ident) (pyLower p.1) = false := by
      simpa using hsplit.1
    have hihres := ih hsplit.2 h1 hf h2 hv
    unfold addrPart at hihres ⊢
    rw [List.cons_append]
    obtain ⟨pn, pv⟩ := p
    rw [show scanFirst (pyLower ident)
        ((pn, pv) :: (rest ++ (n1, v1) :: (mid ++ (n2, some v2) :: post)))
        = scanFirst (pyLower ident)
            (rest ++ (n1, v1) :: (mid ++ (n2, some v2) :: post)) from by
      simp [scanFirst, hp]]
    exact hihres

/-- C10 (witness at a concrete input: the first `unit #` field is empty, a
later one holds `"9"`, and the part is dropped). -/
theorem claim_C10_witness :
    ([(("City1" : String), (some "x" : Option String))].all
        (fun f => !(pyIn (pyLower "unit #") (pyLower f.1))) = true)
    ∧ pyIn (pyLower "unit #") (pyLower "unit # a") = true
    ∧ truthy (some "") = false
    ∧ pyIn (pyLower "unit #") (pyLower "unit # b") = true
    ∧ ("9" : String) ≠ ""
    ∧ addrPart "unit #"
        ([("City1", some "x")]
          ++ ("unit # a", some "") :: ([] ++ ("unit # b", some "9") :: []))
        = [] :=
  ⟨by decide, by decide, by decide, by decide, by decide,
    claim_C10 "unit #" "unit # a" "unit # b" (some "") "9"
      [("City1", some "x")] [] [] (by decide) (by decide) (by decide)
      (by decide) (by decide)⟩
